import Mathlib

/- Shallow embedding of the two chat-server variants in this repository:
   src/ch6_chat_jsonDB/app.py (file-backed history) and
   src/ch6-2_chat_mongoDB/app.py (document-store-backed history).
   The Socket.IO session handlers (connect / disconnect / join / typing /
   change_username and the name-resolution and content-cleanup steps of
   send_message) are textually identical in the two files, so they are
   embedded once.  External effects (uuid generation, the clock, disk I/O,
   the document store) are passed in as explicit oracle arguments. -/

namespace ChatDB

/- MAX_HISTORY = 100 (jsonDB app.py line 24, mongoDB app.py line 29). -/
def MAX_HISTORY : Nat := 100

/- Default display name, the literal used throughout both files. -/
def anonName : String := "匿名"

/- Python truthiness of an optional string value: None and "" are falsy. -/
def truthyStr : Option String → Bool
  | some s => s != ""
  | none => false

/- Python `a or b` for an optional string a and a string b. -/
def orStr (a : Option String) (b : String) : String :=
  match a with
  | some s => if s == "" then b else s
  | none => b

/- Python str.strip() whitespace set (ASCII part). -/
def isPySpace (c : Char) : Bool :=
  c == ' ' || c == '\t' || c == '\n' || c == '\r' || c == '\x0b' || c == '\x0c'

/- Python str.strip(): drop leading and trailing whitespace. -/
def pyStrip (s : List Char) : List Char :=
  ((s.dropWhile isPySpace).reverse.dropWhile isPySpace).reverse

/- The two literal parts of the regular expression
   "user name is .*?\ncontent is " used at jsonDB app.py line 166 and
   mongoDB app.py line 157 (flags=re.IGNORECASE), stored lowercase. -/
def pat1 : List Char := "user name is ".data

def pat2 : List Char := "\ncontent is ".data

/- Case-insensitive literal match at the head of s (the pattern argument is
   already lowercase; re.IGNORECASE folds the subject). -/
def startsWithCI : List Char → List Char → Bool
  | [], _ => true
  | _ :: _, [] => false
  | p :: ps, c :: cs => p == c.toLower && startsWithCI ps cs

/- After "user name is " has matched, the non-greedy ".*?" may consume only
   non-newline characters, as few as possible, before the literal
   "\ncontent is ".  Returns the number of characters consumed from the
   current position (run of non-newline characters plus pat2), or none. -/
def findTail : List Char → Option Nat
  | [] => if startsWithCI pat2 [] then some pat2.length else none
  | c :: r =>
    if startsWithCI pat2 (c :: r) then some pat2.length
    else if c == '\n' then none
    else (findTail r).map (fun n => n + 1)

/- Length of the leftmost-shortest regex match starting exactly here. -/
def matchAt (s : List Char) : Option Nat :=
  if startsWithCI pat1 s then
    (findTail (s.drop pat1.length)).map (fun n => n + pat1.length)
  else none

/- re.sub(pattern, "", s): scan left to right, remove every non-overlapping
   leftmost match, continue scanning after the removed match.  Fuel is the
   length of the string; every step consumes at least one character, so the
   initial fuel always suffices. -/
def reSubAux : Nat → List Char → List Char
  | 0, s => s
  | _ + 1, [] => []
  | fuel + 1, c :: r =>
    match matchAt (c :: r) with
    | some n => reSubAux fuel ((c :: r).drop n)
    | none => c :: reSubAux fuel r

def reSubLegacy (s : List Char) : List Char :=
  reSubAux s.length s

/- Decides that no position of s begins a match of the pattern. -/
def noMatchAll : List Char → Bool
  | [] => true
  | c :: r => (matchAt (c :: r)).isNone && noMatchAll r

/- Lines 163-166 (jsonDB) / 154-157 (mongoDB) of send_message:
   str(data.get("content", "")).strip() followed by the re.sub above. -/
def cleanContent (dataContent : Option String) : String :=
  String.mk (reSubLegacy (pyStrip (dataContent.getD "").data))

/- The normalization AS CLAIM C3 STATES it (spec wording, not the source):
   trim, then strip at most one occurrence of the pattern, matched only as
   a single contiguous prefix of the trimmed content; otherwise unchanged.
   Kept separate from cleanContent so the two can be compared. -/
def claimNormalize (dataContent : Option String) : String :=
  let t := pyStrip (dataContent.getD "").data
  match matchAt t with
  | some n => String.mk (t.drop n)
  | none => String.mk t

/- === Session registry (the `clients` dict, kept in memory) === -/

structure ClientInfo where
  username : Option String
deriving DecidableEq, Repr

abbrev Sid := String

abbrev Clients := List (Sid × ClientInfo)

/- clients[k], clients[k] = v, clients.pop(k, None): a Python dict over
   string keys, embedded as an association list with first-match lookup. -/
def dictGet : Clients → Sid → Option ClientInfo
  | [], _ => none
  | (k, v) :: r, s => if k = s then some v else dictGet r s

def dictSet : Clients → Sid → ClientInfo → Clients
  | [], s, v => [(s, v)]
  | (k, w) :: r, s, v => if k = s then (k, v) :: r else (k, w) :: dictSet r s v

def dictPop : Clients → Sid → Option ClientInfo × Clients
  | [], _ => (none, [])
  | (k, v) :: r, s =>
    if k = s then (some v, r)
    else ((dictPop r s).1, (k, v) :: (dictPop r s).2)

/- === Outbound Socket.IO events === -/

inductive Payload where
  | pUser (username : String)
  | pCount (n : Nat)
  | pNameChange (oldUsername newUsername : Option String)
  | pMessage (id username content timestamp : String)
  | pError (message : String)
deriving DecidableEq, Repr

inductive Target where
  | all
  | others (sid : Sid)
  | only (sid : Sid)
deriving DecidableEq, Repr

structure Emit where
  event : String
  payload : Payload
  target : Target
deriving DecidableEq, Repr

/- broadcast_user_count: number of clients whose username is truthy. -/
def namedCount (cl : Clients) : Nat :=
  (cl.filter (fun p => truthyStr p.2.username)).length

def userCountEmit (cl : Clients) : Emit :=
  ⟨"user_count", .pCount (namedCount cl), .all⟩

/- === Session handlers (identical in both app.py files) === -/

/- on_connect: clients[request.sid] = dict with username None. -/
def onConnect (sid : Sid) (cl : Clients) : Clients :=
  dictSet cl sid ⟨none⟩

/- on_disconnect: info = clients.pop(sid, None); if info and
   info["username"]: broadcast user_left and the updated user count. -/
def onDisconnect (sid : Sid) (cl : Clients) : Clients × List Emit :=
  let p := dictPop cl sid
  match p.1 with
  | some info =>
    if truthyStr info.username then
      (p.2, [⟨"user_left", .pUser (info.username.getD ""), .all⟩, userCountEmit p.2])
    else (p.2, [])
  | none => (p.2, [])

/- on_join: username = data.get("username", anonName);
   clients[request.sid]["username"] = username  -- raises KeyError when the
   sid is not a key of clients (there is no membership guard, unlike
   on_change); then broadcast user_joined and the user count. -/
def onJoin (sid : Sid) (dataUsername : Option String) (cl : Clients) :
    Except String (Clients × List Emit) :=
  let username := dataUsername.getD anonName
  match dictGet cl sid with
  | none => .error "KeyError"
  | some _ =>
    let cl2 := dictSet cl sid ⟨some username⟩
    .ok (cl2, [⟨"user_joined", .pUser username, .all⟩, userCountEmit cl2])

/- on_change: old/new from the payload; registry updated only when the sid
   is registered; the user_changed_name broadcast always fires, with the
   payload-supplied names, to everyone (broadcast=True includes self). -/
def onChange (sid : Sid) (oldU newU : Option String) (cl : Clients) :
    Clients × List Emit :=
  let cl2 := if (dictGet cl sid).isSome then dictSet cl sid ⟨newU⟩ else cl
  (cl2, [⟨"user_changed_name", .pNameChange oldU newU, .all⟩])

/- Line 162 (jsonDB) / 151 (mongoDB):
   (clients.get(sid, empty) or empty).get("username") or data.get("username")
   or the default name; Python `or` skips falsy values (None and ""). -/
def resolveUsername (cl : Clients) (sid : Sid) (dataUsername : Option String) : String :=
  orStr ((dictGet cl sid).bind (fun i => i.username)) (orStr dataUsername anonName)

/- Helpers to look inside an on_join result. -/
def exceptOk {ε α : Type} : Except ε α → Bool
  | .ok _ => true
  | .error _ => false

def joinedName (r : Except String (Clients × List Emit)) (sid : Sid) :
    Option (Option String) :=
  match r with
  | .ok (c, _) => (dictGet c sid).map (fun i => i.username)
  | .error _ => none

def joinEmits (r : Except String (Clients × List Emit)) : List Emit :=
  match r with
  | .ok (_, es) => es
  | .error _ => []

def joinClients (r : Except String (Clients × List Emit)) (fallback : Clients) : Clients :=
  match r with
  | .ok (c, _) => c
  | .error _ => fallback

/- === File-backed history store (ch6_chat_jsonDB) === -/

structure Message where
  id : String
  username : String
  content : String
  timestamp : String
deriving DecidableEq, Repr

/- Lines 177-180: chat_history.append(message); if len > MAX_HISTORY,
   del chat_history[0 : len - MAX_HISTORY]. -/
def historyAppend (m : Message) (l : List Message) : List Message :=
  let l2 := l ++ [m]
  if l2.length > MAX_HISTORY then l2.drop (l2.length - MAX_HISTORY) else l2

/- State of the jsonDB variant: the clients dict, the in-memory
   chat_history list, and the messages.json file (none = file absent). -/
structure JsonState where
  clients : Clients
  chatHistory : List Message
  historyFile : Option (List Message)
deriving DecidableEq, Repr

/- send_message (jsonDB, lines 151-188).  saveOk is the disk oracle for
   _save_chat_history, whose try/except swallows every write error (lines
   68-72): on failure the file is left as it was and the handler carries on,
   broadcasting the message exactly as on success.  msgId and ts stand for
   uuid.uuid4() and the rendered utcnow() timestamp. -/
def onMessageJson (saveOk : Bool) (msgId ts : String) (sid : Sid)
    (dataUsername dataContent : Option String) (st : JsonState) :
    JsonState × List Emit :=
  let username := resolveUsername st.clients sid dataUsername
  let content := cleanContent dataContent
  let m : Message := ⟨msgId, username, content, ts⟩
  let mem2 := historyAppend m st.chatHistory
  let file2 := if saveOk then some mem2 else st.historyFile
  ({ st with chatHistory := mem2, historyFile := file2 },
   [⟨"chat_message", .pMessage msgId username content ts, .others sid⟩])

/- GET /get_history (jsonDB): returns the in-memory list as-is. -/
def getHistoryJson (st : JsonState) : List Message :=
  st.chatHistory

inductive ClearStatus where
  | success
  | error
deriving DecidableEq, Repr

/- POST /clear_history (jsonDB, lines 200-216): the in-memory list is set
   to [] first; then, if the file exists, os.remove is attempted, and a
   remove failure returns the error response (HTTP 500) with the file left
   behind.  removeOk is the os.remove oracle. -/
def clearHistoryJson (removeOk : Bool) (st : JsonState) : JsonState × ClearStatus :=
  let st1 := { st with chatHistory := ([] : List Message) }
  match st1.historyFile with
  | some _ =>
    if removeOk then ({ st1 with historyFile := none }, .success)
    else (st1, .error)
  | none => (st1, .success)

/- _load_chat_history (lines 40-59): if the file exists and parses as a
   list, keep its last MAX_HISTORY entries; on a read error, or when the
   file is absent, the in-memory list becomes [].  readOk is the oracle for
   the open/parse step. -/
def loadChatHistory (readOk : Bool) (st : JsonState) : JsonState :=
  match st.historyFile with
  | some data =>
    if readOk then
      { st with chatHistory := data.drop (data.length - MAX_HISTORY) }
    else { st with chatHistory := ([] : List Message) }
  | none => { st with chatHistory := ([] : List Message) }

/- The in-memory history after a sequence of send_message critical
   sections, starting from the empty log. -/
def jsonAppendAll (msgs : List Message) : List Message :=
  msgs.foldl (fun l m => historyAppend m l) []

/- === Document-store-backed history (ch6-2_chat_mongoDB) === -/

/- A stored document: _id, username, content, and the datetime timestamp,
   modelled as a Nat instant at second precision. -/
structure MDoc where
  id : String
  username : String
  content : String
  timestamp : Nat
deriving DecidableEq, Repr

/- Rendering of the stored instant by _doc_to_message:
   isoformat(timespec="seconds") + "Z", abstracted as an injective encoding
   of the model timestamp with the trailing "Z". -/
def isoZ (n : Nat) : String :=
  toString n ++ "Z"

/- _doc_to_message (mongoDB, lines 52-63). -/
def docToMessage (d : MDoc) : Message :=
  ⟨d.id, d.username, d.content, isoZ d.timestamp⟩

structure MongoState where
  clients : Clients
  docs : List MDoc
deriving DecidableEq, Repr

/- The fixed human-readable part of the chat_error payload (both files
   format "訊息處理失敗：" followed by the exception text). -/
def chatFailText : String := "訊息處理失敗"

/- send_message (mongoDB, lines 139-182).  insertOk is the oracle for
   col.insert_one: when it raises, the collection is unchanged and the
   except branch emits one chat_error to the sender only and nothing else. -/
def onMessageMongo (insertOk : Bool) (msgId : String) (ts : Nat) (sid : Sid)
    (dataUsername dataContent : Option String) (st : MongoState) :
    MongoState × List Emit :=
  let username := resolveUsername st.clients sid dataUsername
  let content := cleanContent dataContent
  let doc : MDoc := ⟨msgId, username, content, ts⟩
  if insertOk then
    ({ st with docs := st.docs ++ [doc] },
     [⟨"chat_message", .pMessage doc.id doc.username doc.content (isoZ doc.timestamp),
       .others sid⟩])
  else
    (st, [⟨"chat_error", .pError chatFailText, .only sid⟩])

/- sort("timestamp", DESCENDING), modelled as an insertion sort placing
   larger timestamps first.  The store leaves the order of equal timestamps
   unspecified (the open question of spec section 9), so theorems about it
   assume pairwise-distinct timestamps, under which every comparison sort
   agrees with this one. -/
def insertDesc (d : MDoc) : List MDoc → List MDoc
  | [] => [d]
  | e :: r => if d.timestamp ≤ e.timestamp then e :: insertDesc d r else d :: e :: r

def sortByTsDesc : List MDoc → List MDoc
  | [] => []
  | d :: r => insertDesc d (sortByTsDesc r)

/- GET /get_history (mongoDB, lines 185-200): newest-first query with
   limit MAX_HISTORY, reversed in the handler, then mapped through
   _doc_to_message. -/
def getHistoryMongo (st : MongoState) : List Message :=
  (((sortByTsDesc st.docs).take MAX_HISTORY).reverse).map docToMessage

/- The last MAX_HISTORY entries of a list, in order. -/
def keepLast {α : Type} (l : List α) : List α :=
  l.drop (l.length - MAX_HISTORY)

/- === Concrete sample inputs used by the theorems below === -/

def c1SampleDocs : List MDoc :=
  [⟨"a", "u", "hello", 1⟩, ⟨"b", "v", "world", 2⟩]

def c3Cex : String := "xx user name is Bob\ncontent is Hello"

def c4State : JsonState :=
  ⟨[("s", ⟨some "Alice"⟩)], [], some []⟩

def c5Msg : Message := ⟨"m1", "u", "hello", "t"⟩

def c5State : JsonState := ⟨[], [c5Msg], some [c5Msg]⟩

def c8State : JsonState := ⟨[("s", ⟨some ""⟩)], [], none⟩

/- === Helper lemmas === -/

lemma dictGet_dictSet_self (l : Clients) (k : Sid) (v : ClientInfo) :
    dictGet (dictSet l k v) k = some v := by
  induction l with
  | nil => simp [dictSet, dictGet]
  | cons p r ih =>
    obtain ⟨a, b⟩ := p
    by_cases h : a = k
    · simp [dictSet, dictGet, h]
    · simp [dictSet, dictGet, h, ih]

lemma dictPop_dictSet_fst (l : Clients) (k : Sid) (v : ClientInfo) :
    (dictPop (dictSet l k v) k).1 = some v := by
  induction l with
  | nil => simp [dictSet, dictPop]
  | cons p r ih =>
    obtain ⟨a, b⟩ := p
    by_cases h : a = k
    · simp [dictSet, dictPop, h]
    · simp [dictSet, dictPop, h, ih]

lemma length_keepLast_le {α : Type} (l : List α) :
    (keepLast l).length ≤ MAX_HISTORY := by
  simp only [keepLast, List.length_drop]
  omega

lemma historyAppend_eq_keepLast (m : Message) (l : List Message) :
    historyAppend m l = keepLast (l ++ [m]) := by
  simp only [historyAppend, keepLast]
  split
  · rfl
  · next h =>
    have hz : (l ++ [m]).length - MAX_HISTORY = 0 :=
      Nat.sub_eq_zero_of_le (Nat.le_of_not_lt h)
    rw [hz, List.drop_zero]

lemma keepLast_append_left {α : Type} (x s : List α) :
    keepLast (keepLast x ++ s) = keepLast (x ++ s) := by
  rcases le_or_lt x.length MAX_HISTORY with h | h
  · have hz : x.length - MAX_HISTORY = 0 := Nat.sub_eq_zero_of_le h
    simp [keepLast, hz]
  · simp only [keepLast, List.length_append, List.length_drop]
    have e1 : x.length - (x.length - MAX_HISTORY) + s.length - MAX_HISTORY = s.length := by
      omega
    have e2 : x.length + s.length - MAX_HISTORY = (x.length - MAX_HISTORY) + s.length := by
      omega
    rw [e1, e2, ← List.drop_drop, List.drop_append_of_le_length (Nat.sub_le _ _)]

lemma foldl_historyAppend_eq (msgs : List Message) :
    ∀ l0 : List Message, l0.length ≤ MAX_HISTORY →
      msgs.foldl (fun l m => historyAppend m l) l0 = keepLast (l0 ++ msgs) := by
  induction msgs with
  | nil =>
    intro l0 h
    have hz : l0.length - MAX_HISTORY = 0 := Nat.sub_eq_zero_of_le h
    simp [keepLast, hz]
  | cons m rest ih =>
    intro l0 _
    rw [List.foldl_cons, ih (historyAppend m l0)
      (by rw [historyAppend_eq_keepLast]; exact length_keepLast_le _)]
    rw [historyAppend_eq_keepLast, keepLast_append_left]
    simp

lemma jsonAppendAll_eq_keepLast (msgs : List Message) :
    jsonAppendAll msgs = keepLast msgs := by
  have := foldl_historyAppend_eq msgs [] (by simp)
  simpa [jsonAppendAll] using this

lemma reverse_take_reverse {α : Type} (l : List α) :
    ∀ k : Nat, (l.reverse.take k).reverse = l.drop (l.length - k) := by
  induction l using List.reverseRecOn with
  | nil => intro k; simp
  | append_singleton l a ih =>
    intro k
    cases k with
    | zero => simp
    | succ k' =>
      have hstep : (l ++ [a]).reverse.take (k' + 1) = a :: l.reverse.take k' := by
        simp
      rw [hstep, List.reverse_cons, ih k']
      have hlen : (l ++ [a]).length - (k' + 1) = l.length - k' := by
        simp
      rw [hlen, List.drop_append_of_le_length (Nat.sub_le _ _)]

lemma insertDesc_all_ge (d : MDoc) (l : List MDoc)
    (h : ∀ e ∈ l, d.timestamp ≤ e.timestamp) : insertDesc d l = l ++ [d] := by
  induction l with
  | nil => rfl
  | cons e r ih =>
    have he : d.timestamp ≤ e.timestamp := h e (by simp)
    simp only [insertDesc, if_pos he]
    rw [ih (fun x hx => h x (by simp [hx]))]
    simp

lemma sortByTsDesc_of_strictAsc (docs : List MDoc)
    (h : docs.Pairwise (fun a b => a.timestamp < b.timestamp)) :
    sortByTsDesc docs = docs.reverse := by
  induction docs with
  | nil => rfl
  | cons d r ih =>
    rw [List.pairwise_cons] at h
    simp only [sortByTsDesc]
    rw [ih h.2, insertDesc_all_ge]
    · simp
    · intro e he
      rw [List.mem_reverse] at he
      exact Nat.le_of_lt (h.1 e he)

lemma reSubAux_of_noMatchAll :
    ∀ (fuel : Nat) (s : List Char), s.length ≤ fuel → noMatchAll s = true →
      reSubAux fuel s = s := by
  intro fuel
  induction fuel with
  | zero => intro s _ _; rfl
  | succ f ih =>
    intro s hlen hnm
    cases s with
    | nil => rfl
    | cons c r =>
      simp only [noMatchAll, Bool.and_eq_true, Option.isNone_iff_eq_none] at hnm
      simp only [reSubAux, hnm.1]
      rw [ih r (by simp at hlen; omega) hnm.2]

lemma historyAppend_getLast (m : Message) (l : List Message) :
    (historyAppend m l).getLast? = some m := by
  rw [historyAppend_eq_keepLast]
  simp only [keepLast]
  have hM : 1 ≤ MAX_HISTORY := by norm_num [MAX_HISTORY]
  have h : (l ++ [m]).length - MAX_HISTORY ≤ l.length := by
    simp only [List.length_append, List.length_cons, List.length_nil]
    omega
  rw [List.drop_append_of_le_length h]
  exact List.getLast?_concat _

/- === Claim theorems === -/

/-- C1: for every sequence of appended messages the history read returns at
most MAX_HISTORY entries, exactly the most recently appended ones, in
oldest-to-newest order.  First conjunct: the file-backed variant, whose
GET handler serves the in-memory list maintained by the send_message
critical section.  Second conjunct: the document-store variant, whose GET
handler queries newest-first with a limit and reverses; since the store
leaves the order of equal timestamps unspecified, this conjunct assumes
strictly increasing timestamps (the well-defined case; ties are the open
race of spec section 9). -/
theorem c1_history_read_bounded_recent_ordered :
    (∀ (cl : Clients) (f : Option (List Message)) (msgs : List Message),
        getHistoryJson ⟨cl, jsonAppendAll msgs, f⟩ =
          msgs.drop (msgs.length - MAX_HISTORY)
        ∧ (getHistoryJson ⟨cl, jsonAppendAll msgs, f⟩).length ≤ MAX_HISTORY)
    ∧ (∀ (cl : Clients) (docs : List MDoc),
        docs.Pairwise (fun a b => a.timestamp < b.timestamp) →
        getHistoryMongo ⟨cl, docs⟩ =
          (docs.drop (docs.length - MAX_HISTORY)).map docToMessage
        ∧ (getHistoryMongo ⟨cl, docs⟩).length ≤ MAX_HISTORY) := by
  constructor
  · intro cl f msgs
    have h := jsonAppendAll_eq_keepLast msgs
    constructor
    · simpa [getHistoryJson, keepLast] using h
    · show (jsonAppendAll msgs).length ≤ MAX_HISTORY
      rw [h]
      exact length_keepLast_le _
  · intro cl docs hp
    have hs := sortByTsDesc_of_strictAsc docs hp
    have hr := reverse_take_reverse docs MAX_HISTORY
    constructor
    · simp only [getHistoryMongo, hs, hr]
    · simp only [getHistoryMongo, hs, hr, List.length_map, List.length_drop]
      omega

/-- Witness for C1: the hypothesised (document-store) conjunct applied to a
concrete two-document collection with strictly increasing timestamps. -/
theorem c1_history_read_witness :
    c1SampleDocs.Pairwise (fun a b => a.timestamp < b.timestamp)
    ∧ getHistoryMongo ⟨[], c1SampleDocs⟩ =
        (c1SampleDocs.drop (c1SampleDocs.length - MAX_HISTORY)).map docToMessage :=
  ⟨by decide, (c1_history_read_bounded_recent_ordered.2 [] c1SampleDocs (by decide)).1⟩

/-- C2 counterexample: invoking join for a connection id that is not in the
registry is NOT a silent no-op: the assignment
clients[request.sid]["username"] raises a KeyError (there is no membership
guard in on_join, unlike on_change), so the handler fails. -/
theorem c2_join_unknown_counterexample :
    onJoin "x" (some "A") [] = .error "KeyError" := rfl

/-- C2 amended: joining for an unregistered connection id raises a KeyError
before any mutation, so the handler is not a silent no-op; the registry is
left unchanged only because the exception fires before the assignment. -/
theorem c2_join_unknown_raises (cl : Clients) (sid : Sid)
    (dataUsername : Option String) (h : dictGet cl sid = none) :
    onJoin sid dataUsername cl = .error "KeyError" := by
  simp [onJoin, h]

/-- Witness for the amended C2 at a concrete unregistered id. -/
theorem c2_join_unknown_raises_witness :
    dictGet [] "x" = none ∧ onJoin "x" (some "A") [] = .error "KeyError" :=
  ⟨rfl, c2_join_unknown_raises [] "x" (some "A") rfl⟩

/-- C3 counterexample: the claim says the legacy pattern is stripped only as
a single contiguous prefix of the trimmed content, and that non-prefix
occurrences are not removed.  The source uses re.sub, which removes every
occurrence anywhere: on an input where the pattern occurs but not as a
prefix, the content is modified even though the claim requires it to be
used unmodified. -/
theorem c3_normalization_counterexample :
    pyStrip c3Cex.data = c3Cex.data
    ∧ matchAt c3Cex.data = none
    ∧ cleanContent (some c3Cex) = "xx Hello"
    ∧ cleanContent (some c3Cex) ≠ c3Cex := by
  refine ⟨?_, ?_, ?_, ?_⟩ <;> decide

/-- C3 amended: submit trims whitespace and then removes EVERY
non-overlapping leftmost-shortest occurrence of the legacy pattern anywhere
in the trimmed content (re.sub semantics), not only a single prefix
occurrence; when the pattern occurs nowhere, the trimmed content is used
unmodified. -/
theorem c3_normalization_strips_all_occurrences :
    (∀ s : String, noMatchAll (pyStrip s.data) = true →
        cleanContent (some s) = String.mk (pyStrip s.data))
    ∧ cleanContent (some "user name is Bob\ncontent is Hello") = "Hello"
    ∧ cleanContent (some "xx user name is Bob\ncontent is Hello") = "xx Hello"
    ∧ cleanContent (some "user name is A\ncontent is user name is B\ncontent is Hi")
        = "Hi" := by
  refine ⟨?_, by decide, by decide, by decide⟩
  intro s h
  show String.mk (reSubAux (pyStrip s.data).length (pyStrip s.data)) = _
  rw [reSubAux_of_noMatchAll _ _ le_rfl h]

/-- Witness for the amended C3 at a concrete match-free input. -/
theorem c3_normalization_strips_all_occurrences_witness :
    noMatchAll (pyStrip "Hello".data) = true
    ∧ cleanContent (some "Hello") = String.mk (pyStrip "Hello".data) :=
  ⟨by decide, c3_normalization_strips_all_occurrences.1 "Hello" (by decide)⟩

/-- C4 counterexample: with the flush-to-disk failing, the handler still
broadcasts chat_message (a success outcome), the in-memory log gains the
message, and the on-disk file does not — _save_chat_history catches and
merely logs every write error (lines 68-72), so a failed flush yields a
success outcome and memory and disk diverge, refuting both disjuncts of
the claimed atomicity. -/
theorem c4_append_atomicity_counterexample :
    ((onMessageJson false "id1" "t1" "s" none (some "hi") c4State).2).map
        (fun e => e.event) = ["chat_message"]
    ∧ (onMessageJson false "id1" "t1" "s" none (some "hi") c4State).1.chatHistory
        = [⟨"id1", "Alice", "hi", "t1"⟩]
    ∧ (onMessageJson false "id1" "t1" "s" none (some "hi") c4State).1.historyFile
        = some [] := by
  refine ⟨?_, ?_, ?_⟩ <;> decide

/-- C4 amended: append always updates the in-memory log (the new message
becomes its last entry, trimming applied) and always broadcasts; the flush
to disk is best-effort — the file mirrors the new memory when the write
succeeds and is left stale when it fails, with no failure reported. -/
theorem c4_append_memory_updates_flush_best_effort
    (saveOk : Bool) (msgId ts : String) (sid : Sid)
    (dataUsername dataContent : Option String) (st : JsonState) :
    (onMessageJson saveOk msgId ts sid dataUsername dataContent st).1.chatHistory.getLast?
        = some ⟨msgId, resolveUsername st.clients sid dataUsername,
                cleanContent dataContent, ts⟩
    ∧ ((onMessageJson saveOk msgId ts sid dataUsername dataContent st).2).map
        (fun e => e.event) = ["chat_message"]
    ∧ (saveOk = true →
        (onMessageJson saveOk msgId ts sid dataUsername dataContent st).1.historyFile
          = some (onMessageJson saveOk msgId ts sid dataUsername dataContent st).1.chatHistory)
    ∧ (saveOk = false →
        (onMessageJson saveOk msgId ts sid dataUsername dataContent st).1.historyFile
          = st.historyFile) := by
  refine ⟨?_, rfl, ?_, ?_⟩
  · exact historyAppend_getLast _ _
  · intro h; subst h; rfl
  · intro h; subst h; rfl

/-- Witness for the amended C4 at a concrete state with a failing flush. -/
theorem c4_append_memory_witness :
    (onMessageJson false "id1" "t1" "s" none (some "hi") c4State).1.historyFile
        = c4State.historyFile
    ∧ (onMessageJson false "id1" "t1" "s" none (some "hi") c4State).1.chatHistory.getLast?
        = some ⟨"id1", resolveUsername c4State.clients "s" none,
                cleanContent (some "hi"), "t1"⟩ :=
  ⟨(c4_append_memory_updates_flush_best_effort false "id1" "t1" "s" none
      (some "hi") c4State).2.2.2 rfl,
   (c4_append_memory_updates_flush_best_effort false "id1" "t1" "s" none
      (some "hi") c4State).1⟩

/-- C5 counterexample: clear_history empties the in-memory list BEFORE
attempting to delete the file; when os.remove fails it returns the error
response with the memory already cleared (so the store is partially
cleared: reads now see nothing despite the reported failure) and the file
intact, and the old messages resurrect when the history is next loaded
from disk. -/
theorem c5_clear_failure_counterexample :
    (clearHistoryJson false c5State).2 = ClearStatus.error
    ∧ (clearHistoryJson false c5State).1.chatHistory = []
    ∧ (clearHistoryJson false c5State).1.historyFile = some [c5Msg]
    ∧ (loadChatHistory true (clearHistoryJson false c5State).1).chatHistory = [c5Msg] := by
  refine ⟨rfl, rfl, rfl, rfl⟩

/-- C5 amended: when the file delete fails, clear reports an error but has
already emptied the in-memory log, while the on-disk file keeps the old
messages, which resurrect on the next load from disk — clear is not
all-or-nothing in the file-backed implementation. -/
theorem c5_clear_failure_not_atomic (st : JsonState) (l : List Message)
    (h : st.historyFile = some l) :
    (clearHistoryJson false st).2 = ClearStatus.error
    ∧ (clearHistoryJson false st).1.chatHistory = []
    ∧ (clearHistoryJson false st).1.historyFile = some l
    ∧ (loadChatHistory true (clearHistoryJson false st).1).chatHistory
        = l.drop (l.length - MAX_HISTORY) := by
  refine ⟨?_, ?_, ?_, ?_⟩ <;> simp [clearHistoryJson, loadChatHistory, h]

/-- Witness for the amended C5 at a concrete one-message store. -/
theorem c5_clear_failure_not_atomic_witness :
    c5State.historyFile = some [c5Msg]
    ∧ (clearHistoryJson false c5State).2 = ClearStatus.error
    ∧ (loadChatHistory true (clearHistoryJson false c5State).1).chatHistory
        = [c5Msg].drop ([c5Msg].length - MAX_HISTORY) :=
  ⟨rfl, (c5_clear_failure_not_atomic c5State [c5Msg] rfl).1,
   (c5_clear_failure_not_atomic c5State [c5Msg] rfl).2.2.2⟩

/-- C6: when the persistence step fails (col.insert_one raises), the handler
broadcasts no chat_message, emits exactly one chat_error unicast to the
submitting connection, leaves the whole state unchanged, and a subsequent
successful submission broadcasts normally. -/
theorem c6_append_failure_error_unicast (st : MongoState) (msgId : String)
    (ts : Nat) (sid : Sid) (dataUsername dataContent : Option String) :
    ((onMessageMongo false msgId ts sid dataUsername dataContent st).2).filter
        (fun e => e.event == "chat_message") = []
    ∧ (onMessageMongo false msgId ts sid dataUsername dataContent st).2
        = [⟨"chat_error", .pError chatFailText, .only sid⟩]
    ∧ (onMessageMongo false msgId ts sid dataUsername dataContent st).1 = st
    ∧ (∀ (msgId2 : String) (ts2 : Nat) (sid2 : Sid) (dU2 dC2 : Option String),
        ((onMessageMongo true msgId2 ts2 sid2 dU2 dC2
            (onMessageMongo false msgId ts sid dataUsername dataContent st).1).2).map
          (fun e => e.event) = ["chat_message"]) := by
  refine ⟨rfl, rfl, rfl, fun _ _ _ _ _ => rfl⟩

/-- C7: the user_left announcement fires only for connections that had
joined with a (truthy) name, and then exactly once: connect followed by
disconnect emits no user_left, while connect, join with a non-empty name,
then disconnect emits exactly one user_left carrying that name. -/
theorem c7_user_left_once_iff_joined (cl : Clients) (x : Sid) (n : String)
    (hn : n ≠ "") :
    ((onDisconnect x (onConnect x cl)).2).filter (fun e => e.event == "user_left") = []
    ∧ exceptOk (onJoin x (some n) (onConnect x cl)) = true
    ∧ ((onDisconnect x (joinClients (onJoin x (some n) (onConnect x cl)) [])).2).filter
        (fun e => e.event == "user_left") = [⟨"user_left", .pUser n, .all⟩] := by
  refine ⟨?_, ?_, ?_⟩
  · simp [onDisconnect, onConnect, dictPop_dictSet_fst, truthyStr]
  · simp [onJoin, onConnect, dictGet_dictSet_self, exceptOk]
  · have hj : joinClients (onJoin x (some n) (onConnect x cl)) []
        = dictSet (dictSet cl x ⟨none⟩) x ⟨some n⟩ := by
      simp [onJoin, onConnect, joinClients, dictGet_dictSet_self]
    rw [hj]
    simp [onDisconnect, dictPop_dictSet_fst, truthyStr, hn, userCountEmit]

/-- Witness for C7 with the concrete name from the claim. -/
theorem c7_user_left_once_iff_joined_witness :
    ("A" : String) ≠ ""
    ∧ ((onDisconnect "x" (onConnect "x" [])).2).filter
        (fun e => e.event == "user_left") = []
    ∧ ((onDisconnect "x" (joinClients (onJoin "x" (some "A") (onConnect "x" [])) [])).2).filter
        (fun e => e.event == "user_left")
      = [⟨"user_left", .pUser "A", .all⟩] :=
  ⟨by decide, (c7_user_left_once_iff_joined [] "x" "A" (by decide)).1,
   (c7_user_left_once_iff_joined [] "x" "A" (by decide)).2.2⟩

/-- C8 counterexample: the registry DOES hold a name for the connection (the
empty string — a state reachable by joining with an empty requested name),
yet the submission's author is taken from the payload fallback instead of
the registry: Python's `or` chain skips a present-but-empty registry name,
so resolution is by truthiness, not by presence. -/
theorem c8_author_chain_counterexample :
    (dictGet c8State.clients "s").bind (fun i => i.username) = some ""
    ∧ (onMessageJson true "id1" "t1" "s" (some "Zed") (some "hi") c8State).2
        = [⟨"chat_message", .pMessage "id1" "Zed" "hi" "t1", .others "s"⟩] := by
  refine ⟨rfl, ?_⟩
  decide

/-- C8 amended: the author is the registry's name when that name is present
AND non-empty; otherwise the payload fallback when present and non-empty;
otherwise the default placeholder — the named instances of the claim
(unnamed connection with fallback "Zed", and with no fallback) still hold. -/
theorem c8_author_chain_truthy (cl : Clients) (sid : Sid)
    (dataUsername : Option String) :
    (∀ s : String, (dictGet cl sid).bind (fun i => i.username) = some s → s ≠ "" →
        resolveUsername cl sid dataUsername = s)
    ∧ (∀ t : String, truthyStr ((dictGet cl sid).bind (fun i => i.username)) = false →
        dataUsername = some t → t ≠ "" →
        resolveUsername cl sid dataUsername = t)
    ∧ (truthyStr ((dictGet cl sid).bind (fun i => i.username)) = false →
        truthyStr dataUsername = false →
        resolveUsername cl sid dataUsername = anonName) := by
  refine ⟨?_, ?_, ?_⟩
  · intro s hs hne
    simp [resolveUsername, hs, orStr, hne]
  · intro t hreg ht hne
    subst ht
    rcases hr : (dictGet cl sid).bind (fun i => i.username) with _ | s0
    · simp [resolveUsername, hr, orStr, hne]
    · rw [hr] at hreg
      have hs0 : s0 = "" := by simpa [truthyStr] using hreg
      subst hs0
      simp [resolveUsername, hr, orStr, hne]
  · intro hreg hdata
    have hout : orStr dataUsername anonName = anonName := by
      rcases hd : dataUsername with _ | t0
      · rfl
      · rw [hd] at hdata
        have ht0 : t0 = "" := by simpa [truthyStr] using hdata
        subst ht0
        rfl
    rcases hr : (dictGet cl sid).bind (fun i => i.username) with _ | s0
    · unfold resolveUsername
      rw [hr, hout]
      rfl
    · rw [hr] at hreg
      have hs0 : s0 = "" := by simpa [truthyStr] using hreg
      subst hs0
      unfold resolveUsername
      rw [hr, hout]
      rfl

/-- Witness for the amended C8: all three branches of the chain at concrete
inputs. -/
theorem c8_author_chain_truthy_witness :
    resolveUsername [("s", ⟨some "Bob"⟩)] "s" (some "Zed") = "Bob"
    ∧ resolveUsername [] "s" (some "Zed") = "Zed"
    ∧ resolveUsername [] "s" none = anonName :=
  ⟨(c8_author_chain_truthy [("s", ⟨some "Bob"⟩)] "s" (some "Zed")).1 "Bob" rfl
      (by decide),
   (c8_author_chain_truthy [] "s" (some "Zed")).2.1 "Zed" rfl rfl (by decide),
   (c8_author_chain_truthy [] "s" none).2.2 rfl rfl⟩

/-- C9 counterexample: joining a registered connection with an explicitly
empty requested name stores the empty string as the display name — the
default placeholder is substituted only when the username key is absent
(data.get's default), not when it is empty. -/
theorem c9_join_empty_name_counterexample :
    joinedName (onJoin "s" (some "") [("s", ⟨none⟩)]) "s" = some (some "")
    ∧ ("" : String) ≠ anonName :=
  ⟨rfl, by decide⟩

/-- C9 amended: for a registered connection, join stores the requested name
whenever the username key is present in the payload — including the empty
string — and the default placeholder only when the key is absent; the
user_joined broadcast carries the same stored name. -/
theorem c9_join_sets_requested_or_default (cl : Clients) (sid : Sid)
    (req : Option String) (h : (dictGet cl sid).isSome = true) :
    joinedName (onJoin sid req cl) sid = some (some (req.getD anonName))
    ∧ (joinEmits (onJoin sid req cl)).head? =
        some ⟨"user_joined", .pUser (req.getD anonName), .all⟩
    ∧ (req = none → req.getD anonName = anonName)
    ∧ (∀ s, req = some s → req.getD anonName = s) := by
  rcases hr : dictGet cl sid with _ | v
  · rw [hr] at h; simp at h
  · refine ⟨?_, ?_, ?_, ?_⟩
    · simp [onJoin, joinedName, hr, dictGet_dictSet_self]
    · simp [onJoin, joinEmits, hr]
    · intro he; subst he; rfl
    · intro s he; subst he; rfl

/-- Witness for the amended C9: an absent username key yields the default
placeholder for a concrete registered connection. -/
theorem c9_join_sets_requested_or_default_witness :
    (dictGet [("s", ⟨none⟩)] "s").isSome = true
    ∧ joinedName (onJoin "s" none [("s", ⟨none⟩)]) "s" = some (some anonName) :=
  ⟨rfl, (c9_join_sets_requested_or_default [("s", ⟨none⟩)] "s" none rfl).1⟩

/-- C10: change_username always broadcasts user_changed_name to everyone
with exactly the payload-supplied old and new names (never consulting the
registry for the old one), and when the sending connection is not
registered the registry is left unchanged while the broadcast still
fires. -/
theorem c10_change_username_unvalidated_broadcast (cl : Clients) (sid : Sid)
    (oldU newU : Option String) :
    (onChange sid oldU newU cl).2
        = [⟨"user_changed_name", .pNameChange oldU newU, .all⟩]
    ∧ (dictGet cl sid = none → (onChange sid oldU newU cl).1 = cl) := by
  constructor
  · rfl
  · intro h
    simp [onChange, h]

/-- Witness for C10 at a concrete unregistered connection. -/
theorem c10_change_username_witness :
    (onChange "s" (some "a") (some "b") []).2
        = [⟨"user_changed_name", .pNameChange (some "a") (some "b"), .all⟩]
    ∧ (onChange "s" (some "a") (some "b") []).1 = [] :=
  ⟨(c10_change_username_unvalidated_broadcast [] "s" (some "a") (some "b")).1,
   (c10_change_username_unvalidated_broadcast [] "s" (some "a") (some "b")).2 rfl⟩

end ChatDB
